import Mathlib

/-
Verification of the browser-automation control layer (Browser / BrowserContext
target-lifecycle handling) found in
src/packages/cloudrun/src/cli/commands/render/renderMedia.ts.

The embedding models the Browser's mutable state (context registry, target
registry, ignored-target set) as an explicit state record, the three protocol
event handlers (`#targetCreated`, `#targetDestroyed`, `#targetInfoChanged`)
as state-transition functions returning `Except` (a thrown Error becomes an
`Except.error`), event emissions as an output list, and protocol requests
issued through `Connection.send` as an output list of `Request` values.
-/

namespace BrowserCore

/-- Equality of Except values is decidable when both component types have
decidable equality (used to evaluate the model on concrete inputs). -/
instance {ε α : Type} [DecidableEq ε] [DecidableEq α] :
    DecidableEq (Except ε α) := fun a b =>
  match a, b with
  | .error e, .error e' => decidable_of_iff (e = e') (by simp)
  | .error _, .ok _ => .isFalse (fun h => Except.noConfusion h)
  | .ok _, .error _ => .isFalse (fun h => Except.noConfusion h)
  | .ok x, .ok x' => decidable_of_iff (x = x') (by simp)

/-- Protocol.Target.TargetInfo: the payload carried by targetCreated and
targetInfoChanged events (the fields the handlers read). -/
structure TargetInfo where
  targetId : String
  type : String
  url : String
  browserContextId : Option String
deriving DecidableEq, Repr

/-- Modelled from the spec: the Target state visible to Browser's handlers.
The Target class itself is not part of the shown source; per the spec a
Target holds a target-info snapshot, an initialization state that resolves
exactly once (`initResolved` is the resolved value of `_initializedPromise`,
`none` while pending), an `_isInitialized` flag, and a weak back-reference to
its owning BrowserContext (here the context identity: `none` means the
default context, `some id` an incognito context). -/
structure Target where
  info : TargetInfo
  contextId : Option String
  initResolved : Option Bool
  isInitialized : Bool
deriving DecidableEq, Repr

/-- Target.url(): returns the url of the stored target-info snapshot. -/
def Target.url (t : Target) : String := t.info.url

/-- Modelled from the spec: `_initializedCallback` resolves the
initialization promise exactly once; calling it when the promise has already
resolved is a no-op. -/
def Target.initializedCallback (t : Target) (success : Bool) : Target :=
  match t.initResolved with
  | none => { t with initResolved := some success }
  | some _ => t

/-- Modelled from the spec: `_targetInfoChanged` updates the stored
target-info snapshot and never re-triggers initialization. -/
def Target.applyTargetInfoChanged (t : Target) (info : TargetInfo) : Target :=
  { t with info := info }

/-- The Browser's mutable state: the context registry `#contexts` (ids of
registered incognito contexts; the default context exists implicitly), the
target registry `#targets` (an insertion-ordered map from target id to
Target, as a JS Map), and the `#ignoredTargets` set. -/
structure BrowserState where
  contexts : List String
  targets : List (String × Target)
  ignoredTargets : List String
deriving DecidableEq, Repr

/-- The state of a Browser constructed with the given initial context ids:
contexts pre-populated, no targets, nothing ignored. -/
def initialState (contextIds : List String) : BrowserState :=
  { contexts := contextIds, targets := [], ignoredTargets := [] }

/-- The errors thrown by the three event handlers (each a `throw new Error`
or a failed `assert` in the source). -/
inductive ConsistencyError where
  | missingBrowserContext
  | duplicateTarget (id : String)
  | missingTargetInDestroyed (id : String)
  | missingTargetInInfoChanged (id : String)
deriving DecidableEq, Repr

/-- Events emitted via `this.emit` (Browser scope) and `context.emit`
(BrowserContext scope, tagged with the context identity). -/
inductive Emitted where
  | browserTargetCreated (t : Target)
  | contextTargetCreated (ctx : Option String) (t : Target)
  | browserTargetDestroyed (t : Target)
  | contextTargetDestroyed (ctx : Option String) (t : Target)
  | browserTargetChanged (t : Target)
  | contextTargetChanged (ctx : Option String) (t : Target)
deriving DecidableEq, Repr

/-- JS `Map.set`: replace the value at an existing key in place, otherwise
append the new binding at the end (JS Maps preserve insertion order). -/
def mapSet (m : List (String × Target)) (k : String) (v : Target) :
    List (String × Target) :=
  match m with
  | [] => [(k, v)]
  | (k₀, v₀) :: rest =>
    if k₀ = k then (k, v) :: rest else (k₀, v₀) :: mapSet rest k v

/-- JS `Map.delete`: remove the binding for a key. -/
def mapDelete (m : List (String × Target)) (k : String) :
    List (String × Target) :=
  m.filter (fun p => p.1 ≠ k)

/-- `this.#contexts.get(browserContextId)`: the context registry resolves an
id to the BrowserContext registered under it (whose identity is `some id`). -/
def contextsGet (st : BrowserState) (cid : String) : Option (Option String) :=
  if st.contexts.contains cid then some (some cid) else none

/-- The context-resolution expression of `#targetCreated`:
`browserContextId && this.#contexts.has(browserContextId) ?
this.#contexts.get(browserContextId) : this.#defaultContext`. The outer
Option is JS definedness (the `if (!context) throw` check); the inner Option
is the context identity (`none` = the default context). -/
def resolveContext (st : BrowserState) (browserContextId : Option String) :
    Option (Option String) :=
  match browserContextId with
  | some cid =>
    if st.contexts.contains cid then contextsGet st cid else some none
  | none => some none

/-- Browser.#targetCreated: resolve the context (falling back to the default
context), throw if it is undefined, apply the target-filter callback (a
rejected target id goes into the ignored set and nothing else happens),
construct the Target, assert the id is not already registered, register it,
await its initialization, and emit TargetCreated at Browser and context
scope only if initialization succeeded. `initResult` is the value the
awaited `_initializedPromise` eventually resolves to. -/
def targetCreated (targetFilterCallback : TargetInfo → Bool)
    (initResult : Bool) (st : BrowserState) (targetInfo : TargetInfo) :
    Except ConsistencyError (BrowserState × List Emitted) :=
  match resolveContext st targetInfo.browserContextId with
  | none => .error .missingBrowserContext
  | some context =>
    if ¬ targetFilterCallback targetInfo then
      .ok ({ st with
             ignoredTargets := targetInfo.targetId :: st.ignoredTargets }, [])
    else
      let target : Target :=
        { info := targetInfo, contextId := context,
          initResolved := some initResult, isInitialized := initResult }
      if (st.targets.lookup targetInfo.targetId).isSome then
        .error (.duplicateTarget targetInfo.targetId)
      else
        let st' := { st with
                     targets := mapSet st.targets targetInfo.targetId target }
        if initResult then
          .ok (st', [.browserTargetCreated target,
                     .contextTargetCreated context target])
        else
          .ok (st', [])

/-- Browser.#targetDestroyed: silently drop ignored target ids; throw for an
unknown non-ignored id; otherwise force-resolve a still-pending
initialization to false, delete the target from the registry, invoke its
closed callback, and emit TargetDestroyed at Browser and context scope only
if the initialization promise resolved to true. -/
def targetDestroyed (st : BrowserState) (targetId : String) :
    Except ConsistencyError (BrowserState × List Emitted) :=
  if st.ignoredTargets.contains targetId then
    .ok (st, [])
  else
    match st.targets.lookup targetId with
    | none => .error (.missingTargetInDestroyed targetId)
    | some target =>
      let target := target.initializedCallback false
      let st' := { st with targets := mapDelete st.targets targetId }
      if target.initResolved = some true then
        .ok (st', [.browserTargetDestroyed target,
                   .contextTargetDestroyed target.contextId target])
      else
        .ok (st', [])

/-- Browser.#targetInfoChanged: silently drop ignored target ids; throw for
an unknown non-ignored id; otherwise record the previous url and
initialization flag, apply the info update, and emit TargetChanged at
Browser and context scope iff the target was already initialized and the url
changed. -/
def targetInfoChanged (st : BrowserState) (targetInfo : TargetInfo) :
    Except ConsistencyError (BrowserState × List Emitted) :=
  if st.ignoredTargets.contains targetInfo.targetId then
    .ok (st, [])
  else
    match st.targets.lookup targetInfo.targetId with
    | none => .error (.missingTargetInInfoChanged targetInfo.targetId)
    | some target =>
      let previousURL := target.url
      let wasInitialized := target.isInitialized
      let target' := target.applyTargetInfoChanged targetInfo
      let st' := { st with
                   targets := mapSet st.targets targetInfo.targetId target' }
      if wasInitialized = true ∧ previousURL ≠ target'.url then
        .ok (st', [.browserTargetChanged target',
                   .contextTargetChanged target'.contextId target'])
      else
        .ok (st', [])

/-- Browser.targets(): all registered targets currently in an initialized
state. -/
def browserTargets (st : BrowserState) : List Target :=
  (st.targets.map Prod.snd).filter (fun t => t.isInitialized)

/-- A protocol target-lifecycle event as delivered by the transport. A
created event carries the value its Target's initialization eventually
resolves to. -/
inductive TargetEvent where
  | created (info : TargetInfo) (initResult : Bool)
  | destroyed (targetId : String)
  | infoChanged (info : TargetInfo)
deriving DecidableEq, Repr

/-- Dispatch one protocol event to the matching Browser handler. -/
def processEvent (f : TargetInfo → Bool) (st : BrowserState) :
    TargetEvent → Except ConsistencyError (BrowserState × List Emitted)
  | .created info b => targetCreated f b st info
  | .destroyed id => targetDestroyed st id
  | .infoChanged info => targetInfoChanged st info

/-- Process a sequence of protocol events in arrival order, stopping at the
first handler error (a thrown consistency error is fatal). -/
def processEvents (f : TargetInfo → Bool) (st : BrowserState) :
    List TargetEvent → Except ConsistencyError BrowserState
  | [] => .ok st
  | e :: es =>
    match processEvent f st e with
    | .error err => .error err
    | .ok (st', _) => processEvents f st' es

/-- The target ids of all created events in a sequence. -/
def createdIds : List TargetEvent → List String :=
  List.filterMap fun e =>
    match e with
    | .created info _ => some info.targetId
    | _ => none

/-- The target ids of the created events accepted by the target filter. -/
def acceptedIds (f : TargetInfo → Bool) : List TargetEvent → List String :=
  List.filterMap fun e =>
    match e with
    | .created info _ => if f info then some info.targetId else none
    | _ => none

/-- The target ids of the created events rejected by the target filter. -/
def rejectedIds (f : TargetInfo → Bool) : List TargetEvent → List String :=
  List.filterMap fun e =>
    match e with
    | .created info _ => if f info then none else some info.targetId
    | _ => none

/-- The number of creations accepted by the target filter in a sequence. -/
def acceptedCount (f : TargetInfo → Bool) (es : List TargetEvent) : Nat :=
  (acceptedIds f es).length

/-- The number of destructions matching an earlier accepted creation, given
the ids `seen` accepted before the sequence started. -/
def matchedCount (f : TargetInfo → Bool) :
    List String → List TargetEvent → Nat
  | _, [] => 0
  | seen, .created info _ :: es =>
    matchedCount f (if f info then info.targetId :: seen else seen) es
  | seen, .destroyed id :: es =>
    (if seen.contains id then 1 else 0) + matchedCount f seen es
  | seen, .infoChanged _ :: es => matchedCount f seen es

/-- The accepted-id accumulator after a sequence of events. -/
def seenAfter (f : TargetInfo → Bool) :
    List String → List TargetEvent → List String
  | seen, [] => seen
  | seen, .created info _ :: es =>
    seenAfter f (if f info then info.targetId :: seen else seen) es
  | seen, .destroyed _ :: es => seenAfter f seen es
  | seen, .infoChanged _ :: es => seenAfter f seen es

/-- The outcome of a waitForTarget call under a given future event schedule:
resolved with a target, rejected with a TimeoutError, or forever pending. -/
inductive WaitOutcome where
  | resolved (t : Target)
  | timedOut
  | pending
deriving DecidableEq, Repr

/-- Browser.waitForTarget, as a function of the future event schedule:
`events` lists the targets later delivered to the temporary
TargetCreated/TargetChanged listeners, paired with their arrival times in
milliseconds, in arrival order. Following the source: if the timeout is 0
(falsy), the call awaits the target promise directly, so it resolves with
the first event target satisfying the predicate and otherwise stays pending
forever; only with a nonzero timeout does the call first evaluate the
predicate against all current `targets()` (resolving immediately on the
first hit) and then race the promise against the timeout. -/
def waitForTarget (predicate : Target → Bool) (timeout : ℕ)
    (st : BrowserState) (events : List (ℕ × Target)) : WaitOutcome :=
  if timeout = 0 then
    match events.find? (fun e => predicate e.2) with
    | some e => .resolved e.2
    | none => .pending
  else
    match (browserTargets st).find? predicate with
    | some t => .resolved t
    | none =>
      match events.find? (fun e => predicate e.2) with
      | some e => if e.1 < timeout then .resolved e.2 else .timedOut
      | none => .timedOut

/-- WEB_PERMISSION_TO_PROTOCOL_PERMISSION: the fixed lookup table from web
permission names to protocol permission tokens. -/
def WEB_PERMISSION_TO_PROTOCOL_PERMISSION : List (String × String) :=
  [("geolocation", "geolocation"),
   ("midi", "midi"),
   ("notifications", "notifications"),
   ("camera", "videoCapture"),
   ("microphone", "audioCapture"),
   ("background-sync", "backgroundSync"),
   ("ambient-light-sensor", "sensors"),
   ("accelerometer", "sensors"),
   ("gyroscope", "sensors"),
   ("magnetometer", "sensors"),
   ("accessibility-events", "accessibilityEvents"),
   ("clipboard-read", "clipboardReadWrite"),
   ("clipboard-write", "clipboardReadWrite"),
   ("payment-handler", "paymentHandler"),
   ("persistent-storage", "durableStorage"),
   ("idle-detection", "idleDetection"),
   ("midi-sysex", "midiSysex")]

/-- Protocol requests issued through Connection.send by the operations
modelled here. -/
inductive Request where
  | disposeBrowserContext (browserContextId : String)
  | grantPermissions (origin : String) (browserContextId : Option String)
      (permissions : List String)
deriving DecidableEq, Repr

/-- The `permissions.map` body of BrowserContext.overridePermissions:
translate each web permission name through the lookup table, throwing
`Unknown permission: <name>` at the first name with no mapping. -/
def translatePermissions : List String → Except String (List String)
  | [] => .ok []
  | p :: ps =>
    match WEB_PERMISSION_TO_PROTOCOL_PERMISSION.lookup p with
    | none => .error ("Unknown permission: " ++ p)
    | some pp =>
      match translatePermissions ps with
      | .error e => .error e
      | .ok pps => .ok (pp :: pps)

/-- BrowserContext.overridePermissions: translate all names first (so an
unknown name throws before anything is sent), then issue exactly one
batched Browser.grantPermissions request carrying this context's id
(`none`, i.e. omitted, for the default context). The returned list holds
the requests actually sent. -/
def overridePermissions (contextId : Option String) (origin : String)
    (permissions : List String) : Except String (List Request) :=
  match translatePermissions permissions with
  | .error e => .error e
  | .ok protocolPermissions =>
    .ok [.grantPermissions origin contextId protocolPermissions]

/-- Browser._disposeContext: a missing (falsy) context id returns without
doing anything; otherwise send Target.disposeBrowserContext and delete the
context from the registry. -/
def disposeContext (st : BrowserState) (contextId : Option String) :
    BrowserState × List Request :=
  match contextId with
  | none => (st, [])
  | some cid =>
    ({ st with contexts := st.contexts.filter (fun c => c ≠ cid) },
     [.disposeBrowserContext cid])

/-- The error thrown by the failed assert in BrowserContext.close
(`Non-incognito profiles cannot be closed!`). -/
inductive InvalidOperationError where
  | nonIncognitoClose
deriving DecidableEq, Repr

/-- BrowserContext.close: assert the context has an id (the default context
has none and fails), then delegate to Browser._disposeContext. -/
def contextClose (st : BrowserState) (contextId : Option String) :
    Except InvalidOperationError (BrowserState × List Request) :=
  match contextId with
  | none => .error .nonIncognitoClose
  | some cid => .ok (disposeContext st (some cid))

/-- Browser.browserContexts(): the default context followed by the
registered incognito contexts, each named by its identity. -/
def browserContexts (st : BrowserState) : List (Option String) :=
  none :: st.contexts.map some

/-- The Target value constructed by #targetCreated from the event's info,
the resolved context identity, and the eventual initialization result. -/
def newTarget (info : TargetInfo) (c : Option String) (b : Bool) : Target :=
  { info := info, contextId := c, initResolved := some b,
    isInitialized := b }

/-- A sample initialized page target in the default context, for concrete
checks. -/
def pageTarget (id : String) (url : String) : Target :=
  { info := { targetId := id, type := "page", url := url,
              browserContextId := none },
    contextId := none, initResolved := some true, isInitialized := true }

/-- A browser state holding one registered initialized page target "t1". -/
def oneTargetState : BrowserState :=
  { contexts := [], targets := [("t1", pageTarget "t1" "u")],
    ignoredTargets := [] }

/-- A browser state holding one registered initialized page target "t1" at
url about:blank. -/
def aboutBlankState : BrowserState :=
  { contexts := [], targets := [("t1", pageTarget "t1" "about:blank")],
    ignoredTargets := [] }

/-- A sample target filter rejecting targets of type "skip", for concrete
checks. -/
def skipFilter : TargetInfo → Bool := fun info => info.type != "skip"

/-- A sample event sequence: an accepted creation, a rejected creation, a
destruction of the ignored target, a destruction of the tracked target. -/
def demoEvents : List TargetEvent :=
  [.created { targetId := "t1", type := "page", url := "u",
              browserContextId := none } true,
   .created { targetId := "t2", type := "skip", url := "u",
              browserContextId := none } true,
   .destroyed "t2",
   .destroyed "t1"]

theorem resolveContext_isSome (st : BrowserState) (x : Option String) :
    (resolveContext st x).isSome = true := by
  unfold resolveContext contextsGet
  cases x with
  | none => rfl
  | some cid => by_cases h : cid ∈ st.contexts <;> simp [h]

/-- C1: the claim asserts that a targetCreated event with an unknown
browser-context id ("ctx1", no registered context) raises a
ConsistencyError. The code instead falls back to the default context: at
this concrete input the handler returns successfully and registers the
target under the default context. -/
theorem targetCreated_unknown_context_counterexample :
    targetCreated (fun _ => true) true (initialState [])
      { targetId := "t1", type := "page", url := "about:blank",
        browserContextId := some "ctx1" } =
    .ok ({ contexts := [],
           targets := [("t1",
             { info := { targetId := "t1", type := "page",
                         url := "about:blank",
                         browserContextId := some "ctx1" },
               contextId := none, initResolved := some true,
               isInitialized := true })],
           ignoredTargets := [] },
         [.browserTargetCreated
            { info := { targetId := "t1", type := "page",
                        url := "about:blank",
                        browserContextId := some "ctx1" },
              contextId := none, initResolved := some true,
              isInitialized := true },
          .contextTargetCreated none
            { info := { targetId := "t1", type := "page",
                        url := "about:blank",
                        browserContextId := some "ctx1" },
              contextId := none, initResolved := some true,
              isInitialized := true }]) := by
  decide

/-- C1 (amended): when a targetCreated event's browser-context id does not
match any registered BrowserContext, the handler resolves the context to
the default browser context and processes the target; the missing-context
ConsistencyError is never raised for such an event. -/
theorem targetCreated_unknown_context_uses_default
    (f : TargetInfo → Bool) (b : Bool) (st : BrowserState)
    (info : TargetInfo) (cid : String)
    (hcid : info.browserContextId = some cid)
    (hunknown : st.contexts.contains cid = false) :
    resolveContext st info.browserContextId = some none ∧
    targetCreated f b st info ≠ .error .missingBrowserContext := by
  have hres : resolveContext st info.browserContextId = some none := by
    simp at hunknown
    rw [hcid]; unfold resolveContext; simp [hunknown]
  refine ⟨hres, ?_⟩
  intro hcontra
  unfold targetCreated at hcontra
  rw [hres] at hcontra
  dsimp only at hcontra
  by_cases hf : f info
  · simp only [hf, not_true_eq_false, if_false] at hcontra
    by_cases hdup : (st.targets.lookup info.targetId).isSome
    · simp [hdup] at hcontra
    · simp only [hdup, if_false] at hcontra
      cases b <;> simp at hcontra
  · simp [hf] at hcontra

/-- C1 (amended) witness: the amended theorem applied at the concrete
scenario input (target "t1", unknown context "ctx1"). -/
theorem targetCreated_unknown_context_uses_default_witness :
    ({ targetId := "t1", type := "page", url := "about:blank",
       browserContextId := some "ctx1" } : TargetInfo).browserContextId =
        some "ctx1"
    ∧ (initialState []).contexts.contains "ctx1" = false
    ∧ (resolveContext (initialState []) (some "ctx1") = some none ∧
       targetCreated (fun _ => true) true (initialState [])
         { targetId := "t1", type := "page", url := "about:blank",
           browserContextId := some "ctx1" } ≠
         .error .missingBrowserContext) :=
  ⟨rfl, rfl,
   targetCreated_unknown_context_uses_default (fun _ => true) true
     (initialState [])
     { targetId := "t1", type := "page", url := "about:blank",
       browserContextId := some "ctx1" } "ctx1" rfl rfl⟩

/-- C2: the claim asserts that for every timeout value, including 0, the
predicate is evaluated against all currently registered initialized targets
before any new event is waited on. Counterexample: with timeout 0, a
pre-existing target satisfying the predicate, and no further events, the
call stays pending forever instead of resolving with that target, because
the `if (!timeout) return await targetPromise` branch skips the
`this.targets().forEach(check)` scan. -/
theorem waitForTarget_zero_skips_scan_counterexample :
    waitForTarget (fun _ => true) 0 oneTargetState [] = .pending := by
  decide

/-- C2 (amended): only for calls with a nonzero timeout is the predicate
evaluated against all currently registered initialized targets before any
new event is waited on; such a call whose predicate already holds for a
pre-existing target resolves with the first such target without requiring a
further event. With timeout 0 the initial scan is skipped. -/
theorem waitForTarget_nonzero_scans_existing
    (pred : Target → Bool) (timeout : ℕ) (st : BrowserState)
    (events : List (ℕ × Target)) (t : Target)
    (hne : timeout ≠ 0)
    (hfound : (browserTargets st).find? pred = some t) :
    waitForTarget pred timeout st events = .resolved t := by
  unfold waitForTarget
  simp [hne, hfound]

/-- C2 (amended) witness: the amended theorem applied at a concrete state
with one satisfying pre-existing target, the default timeout, and no further
events. -/
theorem waitForTarget_nonzero_scans_existing_witness :
    (30000 ≠ 0)
    ∧ (browserTargets oneTargetState).find? (fun t => t.isInitialized) =
        some (pageTarget "t1" "u")
    ∧ waitForTarget (fun t => t.isInitialized) 30000 oneTargetState [] =
        .resolved (pageTarget "t1" "u") :=
  ⟨by decide, by decide,
   waitForTarget_nonzero_scans_existing (fun t => t.isInitialized) 30000
     oneTargetState [] (pageTarget "t1" "u") (by decide) (by decide)⟩

/-- C9: waitForTarget with timeout 0 never fails with a TimeoutError: if no
delivered event satisfies the predicate the call stays pending forever, and
it resolves exactly with the target of the first
TargetCreated/TargetChanged event satisfying the predicate. -/
theorem waitForTarget_zero_never_times_out
    (pred : Target → Bool) (st : BrowserState)
    (events : List (ℕ × Target)) :
    waitForTarget pred 0 st events ≠ .timedOut
    ∧ (events.find? (fun e => pred e.2) = none →
        waitForTarget pred 0 st events = .pending)
    ∧ (∀ (time : ℕ) (t : Target),
        events.find? (fun e => pred e.2) = some (time, t) →
        waitForTarget pred 0 st events = .resolved t) := by
  unfold waitForTarget
  refine ⟨?_, ?_, ?_⟩
  · cases h : events.find? (fun e => pred e.2) <;> simp [h]
  · intro h; simp [h]
  · intro time t h; simp [h]

/-- C9 witness: with no events and a never-satisfied predicate the timeout-0
call is pending (not timed out). -/
theorem waitForTarget_zero_never_times_out_witness :
    (([] : List (ℕ × Target)).find? (fun e => (fun _ => false) e.2) = none)
    ∧ waitForTarget (fun _ => false) 0 (initialState []) [] = .pending :=
  ⟨rfl,
   (waitForTarget_zero_never_times_out (fun _ => false)
     (initialState []) []).2.1 rfl⟩

/-- C5: a targetDestroyed event whose target id is neither registered nor
ignored throws the missing-target consistency error; the thrown error
precedes every mutation and emission, so the registry is unchanged and no
TargetDestroyed event is emitted. -/
theorem targetDestroyed_unknown_id_fatal (st : BrowserState) (id : String)
    (hnotIgn : st.ignoredTargets.contains id = false)
    (hnone : st.targets.lookup id = none) :
    targetDestroyed st id = .error (.missingTargetInDestroyed id) := by
  unfold targetDestroyed
  simp at hnotIgn
  simp [hnotIgn, hnone]

/-- C5 witness: the theorem applied at the empty browser state and target id
"ghost". -/
theorem targetDestroyed_unknown_id_fatal_witness :
    ((initialState []).ignoredTargets.contains "ghost" = false)
    ∧ ((initialState []).targets.lookup "ghost" = none)
    ∧ targetDestroyed (initialState []) "ghost" =
        .error (.missingTargetInDestroyed "ghost") :=
  ⟨rfl, rfl,
   targetDestroyed_unknown_id_fatal (initialState []) "ghost" rfl rfl⟩

/-- C7: close() on the default context (no id) always fails with the
InvalidOperationError and changes nothing; close() on an incognito context
succeeds, issues exactly the dispose request for its id, and removes the
context from the registry so it no longer appears in browserContexts(). -/
theorem contextClose_default_fails_incognito_removes
    (st : BrowserState) (cid : String) :
    contextClose st none = .error .nonIncognitoClose
    ∧ (∃ st', contextClose st (some cid) =
          .ok (st', [.disposeBrowserContext cid])
        ∧ some cid ∉ browserContexts st') := by
  refine ⟨rfl, ⟨_, rfl, ?_⟩⟩
  unfold browserContexts
  simp [List.mem_filter]

/-- C10: the web-permission-to-protocol-token table is not injective:
clipboard-read and clipboard-write both map to clipboardReadWrite, and the
four sensor permissions all map to sensors, so a grant request built from
distinct permission names can carry duplicate protocol tokens. -/
theorem permission_table_not_injective :
    WEB_PERMISSION_TO_PROTOCOL_PERMISSION.lookup "clipboard-read" =
      some "clipboardReadWrite"
    ∧ WEB_PERMISSION_TO_PROTOCOL_PERMISSION.lookup "clipboard-write" =
      some "clipboardReadWrite"
    ∧ WEB_PERMISSION_TO_PROTOCOL_PERMISSION.lookup "ambient-light-sensor" =
      some "sensors"
    ∧ WEB_PERMISSION_TO_PROTOCOL_PERMISSION.lookup "accelerometer" =
      some "sensors"
    ∧ WEB_PERMISSION_TO_PROTOCOL_PERMISSION.lookup "gyroscope" =
      some "sensors"
    ∧ WEB_PERMISSION_TO_PROTOCOL_PERMISSION.lookup "magnetometer" =
      some "sensors"
    ∧ overridePermissions none "https://a.com"
        ["clipboard-read", "clipboard-write"] =
      .ok [.grantPermissions "https://a.com" none
            ["clipboardReadWrite", "clipboardReadWrite"]] := by
  decide

theorem lookup_eq_none_iff (m : List (String × Target)) (k : String) :
    m.lookup k = none ↔ k ∉ m.map Prod.fst := by
  induction m with
  | nil => simp [List.lookup]
  | cons hd tl ih =>
    obtain ⟨k₀, v₀⟩ := hd
    by_cases h : k = k₀
    · subst h; simp [List.lookup]
    · have hbeq : (k == k₀) = false := by
        rw [beq_eq_false_iff_ne]; exact h
      simp [List.lookup, hbeq, ih, h]

theorem lookup_isSome_iff (m : List (String × Target)) (k : String) :
    (m.lookup k).isSome = true ↔ k ∈ m.map Prod.fst := by
  rw [Option.isSome_iff_ne_none, ne_eq, lookup_eq_none_iff, not_not]

theorem mapSet_eq_append_of_lookup_none (m : List (String × Target))
    (k : String) (v : Target) (h : m.lookup k = none) :
    mapSet m k v = m ++ [(k, v)] := by
  induction m with
  | nil => rfl
  | cons hd tl ih =>
    obtain ⟨k₀, v₀⟩ := hd
    have hk : ¬ (k₀ = k) := by
      intro he; subst he
      simp [List.lookup] at h
    have hbeq : (k == k₀) = false := by
      rw [beq_eq_false_iff_ne]; exact fun he => hk he.symm
    unfold mapSet
    rw [if_neg hk, List.cons_append]
    congr 1
    exact ih (by simpa [List.lookup, hbeq] using h)

theorem mapSet_keys_of_lookup_some (m : List (String × Target)) (k : String)
    (v w : Target) (h : m.lookup k = some w) :
    (mapSet m k v).map Prod.fst = m.map Prod.fst := by
  induction m with
  | nil => simp [List.lookup] at h
  | cons hd tl ih =>
    obtain ⟨k₀, v₀⟩ := hd
    unfold mapSet
    by_cases hk : k₀ = k
    · subst hk; simp
    · have hbeq : (k == k₀) = false := by
        rw [beq_eq_false_iff_ne]; exact fun he => hk he.symm
      rw [if_neg hk]
      simp only [List.map_cons]
      rw [ih (by simpa [List.lookup, hbeq] using h)]

theorem mapDelete_eq_self_of_not_mem (m : List (String × Target))
    (k : String) (h : k ∉ m.map Prod.fst) : mapDelete m k = m := by
  unfold mapDelete
  rw [List.filter_eq_self]
  intro p hp
  have hne : p.1 ≠ k := fun he => h (he ▸ List.mem_map_of_mem Prod.fst hp)
  simpa using hne

theorem mapDelete_length (m : List (String × Target)) (k : String)
    (v : Target) (hnodup : (m.map Prod.fst).Nodup)
    (h : m.lookup k = some v) :
    (mapDelete m k).length + 1 = m.length := by
  induction m with
  | nil => simp [List.lookup] at h
  | cons hd tl ih =>
    obtain ⟨k₀, v₀⟩ := hd
    simp only [List.map_cons, List.nodup_cons] at hnodup
    by_cases hk : k₀ = k
    · subst hk
      unfold mapDelete
      rw [List.filter_cons]
      have hrest := mapDelete_eq_self_of_not_mem tl k₀ hnodup.1
      unfold mapDelete at hrest
      simp [hrest]
      intro a b hab he
      subst he
      exact hnodup.1 (List.mem_map_of_mem Prod.fst hab)
    · have hbeq : (k == k₀) = false := by
        rw [beq_eq_false_iff_ne]; exact fun he => hk he.symm
      have h' : tl.lookup k = some v := by
        simpa [List.lookup, hbeq] using h
      unfold mapDelete
      rw [List.filter_cons]
      have hlen := ih hnodup.2 h'
      unfold mapDelete at hlen
      simp [hk] at hlen ⊢
      omega

theorem mapDelete_keys_subset (m : List (String × Target)) (k : String)
    (id : String) (h : id ∈ (mapDelete m k).map Prod.fst) :
    id ∈ m.map Prod.fst := by
  unfold mapDelete at h
  obtain ⟨p, hp, hpe⟩ := List.mem_map.mp h
  exact hpe ▸ List.mem_map_of_mem Prod.fst (List.mem_of_mem_filter hp)

theorem mapDelete_keys_nodup (m : List (String × Target)) (k : String)
    (h : (m.map Prod.fst).Nodup) :
    ((mapDelete m k).map Prod.fst).Nodup := by
  unfold mapDelete
  exact h.sublist (List.Sublist.map Prod.fst (List.filter_sublist m))

theorem mapSet_lookup_self (m : List (String × Target)) (k : String)
    (v : Target) : (mapSet m k v).lookup k = some v := by
  induction m with
  | nil => simp [mapSet, List.lookup]
  | cons hd tl ih =>
    obtain ⟨k₀, v₀⟩ := hd
    unfold mapSet
    by_cases h : k₀ = k
    · simp [h, List.lookup]
    · have : (k == k₀) = false := by
        simp [BEq.beq]; exact fun he => h he.symm
      simp [h, List.lookup, this, ih]

theorem createdIds_append (xs ys : List TargetEvent) :
    createdIds (xs ++ ys) = createdIds xs ++ createdIds ys :=
  List.filterMap_append xs ys _

theorem acceptedIds_append (f : TargetInfo → Bool) (xs ys : List TargetEvent) :
    acceptedIds f (xs ++ ys) = acceptedIds f xs ++ acceptedIds f ys :=
  List.filterMap_append xs ys _

theorem rejectedIds_append (f : TargetInfo → Bool) (xs ys : List TargetEvent) :
    rejectedIds f (xs ++ ys) = rejectedIds f xs ++ rejectedIds f ys :=
  List.filterMap_append xs ys _

theorem mem_createdIds_of_mem_acceptedIds (f : TargetInfo → Bool)
    (es : List TargetEvent) (id : String) (h : id ∈ acceptedIds f es) :
    id ∈ createdIds es := by
  unfold acceptedIds at h
  unfold createdIds
  obtain ⟨e, he, hge⟩ := List.mem_filterMap.mp h
  refine List.mem_filterMap.mpr ⟨e, he, ?_⟩
  cases e with
  | created info b =>
    by_cases hf : f info
    · simpa [hf] using hge
    · simp [hf] at hge
  | destroyed _ => simp at hge
  | infoChanged _ => simp at hge

theorem mem_createdIds_of_mem_rejectedIds (f : TargetInfo → Bool)
    (es : List TargetEvent) (id : String) (h : id ∈ rejectedIds f es) :
    id ∈ createdIds es := by
  unfold rejectedIds at h
  unfold createdIds
  obtain ⟨e, he, hge⟩ := List.mem_filterMap.mp h
  refine List.mem_filterMap.mpr ⟨e, he, ?_⟩
  cases e with
  | created info b =>
    by_cases hf : f info
    · simp [hf] at hge
    · simpa [hf] using hge
  | destroyed _ => simp at hge
  | infoChanged _ => simp at hge

theorem not_mem_rejected_of_mem_accepted (f : TargetInfo → Bool)
    (es : List TargetEvent) (hnodup : (createdIds es).Nodup) (id : String)
    (ha : id ∈ acceptedIds f es) : id ∉ rejectedIds f es := by
  induction es with
  | nil => simp [acceptedIds] at ha
  | cons e es ih =>
    cases e with
    | created info b =>
      have hnodup' : info.targetId ∉ createdIds es ∧ (createdIds es).Nodup := by
        simpa [createdIds, List.filterMap_cons] using hnodup
      by_cases hf : f info
      · intro hr
        have hr' : id ∈ rejectedIds f es := by
          simpa [rejectedIds, List.filterMap_cons, hf] using hr
        have ha' : id = info.targetId ∨ id ∈ acceptedIds f es := by
          simpa [acceptedIds, List.filterMap_cons, hf] using ha
        rcases ha' with he | ha'
        · subst he
          exact hnodup'.1 (mem_createdIds_of_mem_rejectedIds f es _ hr')
        · exact ih hnodup'.2 ha' hr'
      · intro hr
        have hr' : id = info.targetId ∨ id ∈ rejectedIds f es := by
          simpa [rejectedIds, List.filterMap_cons, hf] using hr
        have ha' : id ∈ acceptedIds f es := by
          simpa [acceptedIds, List.filterMap_cons, hf] using ha
        rcases hr' with he | hr'
        · subst he
          exact hnodup'.1 (mem_createdIds_of_mem_acceptedIds f es _ ha')
        · exact ih hnodup'.2 ha' hr'
    | destroyed tid =>
      have hnodup' : (createdIds es).Nodup := by
        simpa [createdIds, List.filterMap_cons] using hnodup
      have ha' : id ∈ acceptedIds f es := by
        simpa [acceptedIds, List.filterMap_cons] using ha
      intro hr
      have hr' : id ∈ rejectedIds f es := by
        simpa [rejectedIds, List.filterMap_cons] using hr
      exact ih hnodup' ha' hr'
    | infoChanged i =>
      have hnodup' : (createdIds es).Nodup := by
        simpa [createdIds, List.filterMap_cons] using hnodup
      have ha' : id ∈ acceptedIds f es := by
        simpa [acceptedIds, List.filterMap_cons] using ha
      intro hr
      have hr' : id ∈ rejectedIds f es := by
        simpa [rejectedIds, List.filterMap_cons] using hr
      exact ih hnodup' ha' hr'

theorem matchedCount_append (f : TargetInfo → Bool) (seen : List String)
    (xs ys : List TargetEvent) :
    matchedCount f seen (xs ++ ys) =
      matchedCount f seen xs + matchedCount f (seenAfter f seen xs) ys := by
  induction xs generalizing seen with
  | nil => simp [matchedCount, seenAfter]
  | cons e es ih =>
    cases e with
    | created info b =>
      simp only [List.cons_append, matchedCount, seenAfter, List.append_eq, ih]
    | destroyed tid =>
      simp only [List.cons_append, matchedCount, seenAfter, List.append_eq, ih]
      omega
    | infoChanged i =>
      simp only [List.cons_append, matchedCount, seenAfter, List.append_eq, ih]

theorem mem_seenAfter (f : TargetInfo → Bool) (seen : List String)
    (es : List TargetEvent) (id : String) :
    id ∈ seenAfter f seen es ↔ id ∈ seen ∨ id ∈ acceptedIds f es := by
  induction es generalizing seen with
  | nil => simp [seenAfter, acceptedIds]
  | cons e es ih =>
    cases e with
    | created info b =>
      by_cases hf : f info
      · simp only [seenAfter, hf, if_true, ih, List.mem_cons,
          acceptedIds, List.filterMap_cons]
        simp [hf, acceptedIds]
        tauto
      · simp only [seenAfter, hf, if_false, ih]
        simp [hf, acceptedIds, List.filterMap_cons]
    | destroyed tid =>
      simp only [seenAfter, ih]
      simp [acceptedIds, List.filterMap_cons]
    | infoChanged i =>
      simp only [seenAfter, ih]
      simp [acceptedIds, List.filterMap_cons]

theorem targetCreated_rejected_eq (f : TargetInfo → Bool) (b : Bool)
    (st : BrowserState) (info : TargetInfo) (hf : f info = false) :
    targetCreated f b st info =
      .ok ({ st with ignoredTargets := info.targetId :: st.ignoredTargets },
           []) := by
  obtain ⟨c, hc⟩ := Option.isSome_iff_exists.mp
    (resolveContext_isSome st info.browserContextId)
  unfold targetCreated
  rw [hc]
  simp [hf]

theorem targetCreated_accepted_fresh_eq (f : TargetInfo → Bool) (b : Bool)
    (st : BrowserState) (info : TargetInfo) (c : Option String)
    (hc : resolveContext st info.browserContextId = some c)
    (hf : f info = true)
    (hlk : st.targets.lookup info.targetId = none) :
    targetCreated f b st info =
      .ok ({ st with targets := (mapSet st.targets info.targetId
              (newTarget info c b)) },
           if b then
             [.browserTargetCreated (newTarget info c b),
              .contextTargetCreated c (newTarget info c b)]
           else []) := by
  unfold targetCreated newTarget
  rw [hc]
  cases b <;> simp [hf, hlk]

theorem targetCreated_accepted_dup_eq (f : TargetInfo → Bool) (b : Bool)
    (st : BrowserState) (info : TargetInfo) (hf : f info = true)
    (hlk : (st.targets.lookup info.targetId).isSome = true) :
    targetCreated f b st info = .error (.duplicateTarget info.targetId) := by
  obtain ⟨c, hc⟩ := Option.isSome_iff_exists.mp
    (resolveContext_isSome st info.browserContextId)
  unfold targetCreated
  rw [hc]
  simp [hf, hlk]

theorem targetDestroyed_ignored_eq (st : BrowserState) (id : String)
    (h : id ∈ st.ignoredTargets) : targetDestroyed st id = .ok (st, []) := by
  unfold targetDestroyed
  simp [h]

theorem targetDestroyed_tracked_eq (st : BrowserState) (id : String)
    (tgt : Target) (hnot : id ∉ st.ignoredTargets)
    (hlk : st.targets.lookup id = some tgt) :
    targetDestroyed st id =
      .ok ({ st with targets := mapDelete st.targets id },
           if (tgt.initializedCallback false).initResolved = some true then
             [.browserTargetDestroyed (tgt.initializedCallback false),
              .contextTargetDestroyed
                (tgt.initializedCallback false).contextId
                (tgt.initializedCallback false)]
           else []) := by
  unfold targetDestroyed
  simp [hnot, hlk]
  split <;> rfl

theorem targetInfoChanged_ignored_eq (st : BrowserState) (info : TargetInfo)
    (h : info.targetId ∈ st.ignoredTargets) :
    targetInfoChanged st info = .ok (st, []) := by
  unfold targetInfoChanged
  simp [h]

theorem targetInfoChanged_tracked_eq (st : BrowserState) (info : TargetInfo)
    (tgt : Target) (hnot : info.targetId ∉ st.ignoredTargets)
    (hlk : st.targets.lookup info.targetId = some tgt) :
    targetInfoChanged st info =
      .ok ({ st with targets := (mapSet st.targets info.targetId
              (tgt.applyTargetInfoChanged info)) },
           if tgt.isInitialized = true ∧
              tgt.url ≠ (tgt.applyTargetInfoChanged info).url then
             [.browserTargetChanged (tgt.applyTargetInfoChanged info),
              .contextTargetChanged
                (tgt.applyTargetInfoChanged info).contextId
                (tgt.applyTargetInfoChanged info)]
           else []) := by
  unfold targetInfoChanged
  simp [hnot, hlk]
  split <;> rfl

theorem processEvents_append (f : TargetInfo → Bool) (st : BrowserState)
    (xs ys : List TargetEvent) :
    processEvents f st (xs ++ ys) =
      match processEvents f st xs with
      | .error err => .error err
      | .ok st' => processEvents f st' ys := by
  induction xs generalizing st with
  | nil => simp [processEvents]
  | cons e es ih =>
    simp only [List.cons_append, processEvents]
    cases hstep : processEvent f st e with
    | error err => rfl
    | ok pr => exact ih pr.1

theorem processEvents_invariant (f : TargetInfo → Bool)
    (ctxs : List String) :
    ∀ hist : List TargetEvent, (createdIds hist).Nodup →
      ∀ st : BrowserState,
        processEvents f (initialState ctxs) hist = .ok st →
        (st.targets.length + matchedCount f [] hist = acceptedCount f hist
         ∧ (∀ id ∈ st.targets.map Prod.fst, id ∈ acceptedIds f hist)
         ∧ (∀ id ∈ st.ignoredTargets, id ∈ rejectedIds f hist)
         ∧ (st.targets.map Prod.fst).Nodup) := by
  intro hist
  induction hist using List.reverseRecOn with
  | nil =>
    intro _ st hrun
    simp only [processEvents] at hrun
    injection hrun with h
    subst h
    refine ⟨rfl, ?_, ?_, ?_⟩ <;> simp [initialState]
  | append_singleton xs e ih =>
    intro hnodup st hrun
    have hnodupXs : (createdIds xs).Nodup := by
      rw [createdIds_append] at hnodup
      exact hnodup.of_append_left
    rw [processEvents_append] at hrun
    cases hxs : processEvents f (initialState ctxs) xs with
    | error err => rw [hxs] at hrun; exact absurd hrun (by simp)
    | ok stMid =>
      rw [hxs] at hrun
      obtain ⟨hsize, hkeys, hignored, hnd⟩ := ih hnodupXs stMid hxs
      simp only [processEvents] at hrun
      cases hstep : processEvent f stMid e with
      | error err => rw [hstep] at hrun; exact absurd hrun (by simp)
      | ok pr =>
        obtain ⟨st', ems⟩ := pr
        rw [hstep] at hrun
        simp only [processEvents] at hrun
        injection hrun with h
        subst h
        cases e with
        | created info b =>
          have hfresh : info.targetId ∉ createdIds xs := by
            rw [createdIds_append, List.nodup_append] at hnodup
            exact fun hmem =>
              hnodup.2.2 hmem (by simp [createdIds])
          by_cases hf : f info = true
          · by_cases hdup : (stMid.targets.lookup info.targetId).isSome = true
            · simp only [processEvent] at hstep
              rw [targetCreated_accepted_dup_eq f b stMid info
                hf hdup] at hstep
              exact absurd hstep (by simp)
            · have hlkNone : stMid.targets.lookup info.targetId = none :=
                Option.not_isSome_iff_eq_none.mp hdup
              obtain ⟨c, hc⟩ := Option.isSome_iff_exists.mp
                (resolveContext_isSome stMid info.browserContextId)
              simp only [processEvent] at hstep
              rw [targetCreated_accepted_fresh_eq f b stMid
                info c hc hf hlkNone] at hstep
              simp only [Except.ok.injEq, Prod.mk.injEq] at hstep
              obtain ⟨hsteq, hemseq⟩ := hstep
              have hmapset := mapSet_eq_append_of_lookup_none stMid.targets
                info.targetId (newTarget info c b) hlkNone
              have hkeys' : st'.targets.map Prod.fst =
                  stMid.targets.map Prod.fst ++ [info.targetId] := by
                rw [← hsteq]
                dsimp only
                rw [hmapset]
                simp
              have hacceptedSingle :
                  acceptedIds f [TargetEvent.created info b] =
                    [info.targetId] := by
                simp [acceptedIds, List.filterMap_cons, hf]
              refine ⟨?_, ?_, ?_, ?_⟩
              · have hlen : st'.targets.length = stMid.targets.length + 1 := by
                  have := congrArg List.length hkeys'
                  simpa using this
                have hm : matchedCount f [] (xs ++ [.created info b]) =
                    matchedCount f [] xs := by
                  rw [matchedCount_append]
                  simp [matchedCount]
                have ha : acceptedCount f (xs ++ [.created info b]) =
                    acceptedCount f xs + 1 := by
                  unfold acceptedCount
                  rw [acceptedIds_append, hacceptedSingle]
                  simp
                rw [hlen, hm, ha]
                omega
              · intro id hid
                rw [hkeys'] at hid
                rw [acceptedIds_append, hacceptedSingle]
                rcases List.mem_append.mp hid with hid | hid
                · exact List.mem_append.mpr (Or.inl (hkeys id hid))
                · exact List.mem_append.mpr (Or.inr (by simpa using hid))
              · intro id hid
                have : st'.ignoredTargets = stMid.ignoredTargets := by
                  rw [← hsteq]
                rw [this] at hid
                rw [rejectedIds_append]
                exact List.mem_append.mpr (Or.inl (hignored id hid))
              · rw [hkeys', List.nodup_append]
                refine ⟨hnd, List.nodup_singleton _, ?_⟩
                intro a ha hb
                have ha' := hkeys a ha
                have hb' : a = info.targetId := by simpa using hb
                subst hb'
                exact hfresh (mem_createdIds_of_mem_acceptedIds f xs _ ha')
          · have hf' : f info = false := by
              cases hff : f info
              · rfl
              · exact absurd hff hf
            simp only [processEvent] at hstep
            rw [targetCreated_rejected_eq f b stMid info hf'] at hstep
            simp only [Except.ok.injEq, Prod.mk.injEq] at hstep
            obtain ⟨hsteq, hemseq⟩ := hstep
            have hrejSingle : rejectedIds f [TargetEvent.created info b] =
                [info.targetId] := by
              simp [rejectedIds, List.filterMap_cons, hf']
            have haccSingle : acceptedIds f [TargetEvent.created info b] =
                ([] : List String) := by
              simp [acceptedIds, List.filterMap_cons, hf']
            refine ⟨?_, ?_, ?_, ?_⟩
            · have hlen : st'.targets = stMid.targets := by rw [← hsteq]
              have hm : matchedCount f [] (xs ++ [.created info b]) =
                  matchedCount f [] xs := by
                rw [matchedCount_append]
                simp [matchedCount]
              have ha : acceptedCount f (xs ++ [.created info b]) =
                  acceptedCount f xs := by
                unfold acceptedCount
                rw [acceptedIds_append, haccSingle]
                simp
              rw [hlen, hm, ha]
              exact hsize
            · intro id hid
              have hlen : st'.targets = stMid.targets := by rw [← hsteq]
              rw [hlen] at hid
              rw [acceptedIds_append]
              exact List.mem_append.mpr (Or.inl (hkeys id hid))
            · intro id hid
              have hignEq : st'.ignoredTargets =
                  info.targetId :: stMid.ignoredTargets := by rw [← hsteq]
              rw [hignEq] at hid
              rw [rejectedIds_append, hrejSingle]
              rcases List.mem_cons.mp hid with hid | hid
              · exact List.mem_append.mpr (Or.inr (by simp [hid]))
              · exact List.mem_append.mpr (Or.inl (hignored id hid))
            · have hlen : st'.targets = stMid.targets := by rw [← hsteq]
              rw [hlen]
              exact hnd
        | destroyed tid =>
          have hcountsEq : createdIds (xs ++ [TargetEvent.destroyed tid]) =
              createdIds xs := by
            rw [createdIds_append]; simp [createdIds]
          have haccEq : acceptedIds f (xs ++ [TargetEvent.destroyed tid]) =
              acceptedIds f xs := by
            rw [acceptedIds_append]; simp [acceptedIds]
          have hrejEq : rejectedIds f (xs ++ [TargetEvent.destroyed tid]) =
              rejectedIds f xs := by
            rw [rejectedIds_append]; simp [rejectedIds]
          have hmEq : matchedCount f [] (xs ++ [TargetEvent.destroyed tid]) =
              matchedCount f [] xs +
                (if (seenAfter f [] xs).contains tid then 1 else 0) := by
            rw [matchedCount_append]
            simp [matchedCount]
          by_cases hign : tid ∈ stMid.ignoredTargets
          · simp only [processEvent] at hstep
            rw [targetDestroyed_ignored_eq stMid tid hign] at hstep
            simp only [Except.ok.injEq, Prod.mk.injEq] at hstep
            obtain ⟨hsteq, hemseq⟩ := hstep
            have hnotAcc : tid ∉ acceptedIds f xs := by
              intro hacc
              exact not_mem_rejected_of_mem_accepted f xs hnodupXs tid hacc
                (hignored tid hign)
            have hseenFalse : (seenAfter f [] xs).contains tid = false := by
              have hni : tid ∉ seenAfter f [] xs := by
                rw [mem_seenAfter]
                simp [hnotAcc]
              simpa using hni
            rw [← hsteq]
            refine ⟨?_, ?_, ?_, hnd⟩
            · rw [hmEq, hseenFalse]
              unfold acceptedCount
              rw [haccEq]
              simpa using hsize
            · intro id hid
              rw [haccEq]
              exact hkeys id hid
            · intro id hid
              rw [hrejEq]
              exact hignored id hid
          · cases hlk : stMid.targets.lookup tid with
            | none =>
              have herr : targetDestroyed stMid tid =
                  .error (.missingTargetInDestroyed tid) := by
                unfold targetDestroyed
                simp [hign, hlk]
              simp only [processEvent] at hstep
              rw [herr] at hstep
              exact absurd hstep (by simp)
            | some tgt =>
              simp only [processEvent] at hstep
              rw [targetDestroyed_tracked_eq stMid tid tgt hign hlk] at hstep
              simp only [Except.ok.injEq, Prod.mk.injEq] at hstep
              obtain ⟨hsteq, hemseq⟩ := hstep
              have hmemKeys : tid ∈ stMid.targets.map Prod.fst :=
                (lookup_isSome_iff stMid.targets tid).mp (by simp [hlk])
              have hacc : tid ∈ acceptedIds f xs := hkeys tid hmemKeys
              have hseenTrue : (seenAfter f [] xs).contains tid = true := by
                have hmi : tid ∈ seenAfter f [] xs := by
                  rw [mem_seenAfter]
                  exact Or.inr hacc
                simpa using hmi
              have hlen := mapDelete_length stMid.targets tid tgt hnd hlk
              refine ⟨?_, ?_, ?_, ?_⟩
              · have htEq : st'.targets = mapDelete stMid.targets tid := by
                  rw [← hsteq]
                have hm2 : matchedCount f []
                    (xs ++ [TargetEvent.destroyed tid]) =
                    matchedCount f [] xs + 1 := by
                  rw [hmEq, hseenTrue]
                  simp
                have ha2 : acceptedCount f
                    (xs ++ [TargetEvent.destroyed tid]) =
                    acceptedCount f xs := by
                  unfold acceptedCount
                  rw [haccEq]
                rw [htEq, hm2, ha2]
                omega
              · intro id hid
                have htEq : st'.targets = mapDelete stMid.targets tid := by
                  rw [← hsteq]
                rw [htEq] at hid
                rw [haccEq]
                exact hkeys id (mapDelete_keys_subset stMid.targets tid id hid)
              · intro id hid
                have hiEq : st'.ignoredTargets = stMid.ignoredTargets := by
                  rw [← hsteq]
                rw [hiEq] at hid
                rw [hrejEq]
                exact hignored id hid
              · have htEq : st'.targets = mapDelete stMid.targets tid := by
                  rw [← hsteq]
                rw [htEq]
                exact mapDelete_keys_nodup stMid.targets tid hnd
        | infoChanged i =>
          have haccEq : acceptedIds f (xs ++ [TargetEvent.infoChanged i]) =
              acceptedIds f xs := by
            rw [acceptedIds_append]; simp [acceptedIds]
          have hrejEq : rejectedIds f (xs ++ [TargetEvent.infoChanged i]) =
              rejectedIds f xs := by
            rw [rejectedIds_append]; simp [rejectedIds]
          have hmEq : matchedCount f [] (xs ++ [TargetEvent.infoChanged i]) =
              matchedCount f [] xs := by
            rw [matchedCount_append]
            simp [matchedCount]
          by_cases hign : i.targetId ∈ stMid.ignoredTargets
          · simp only [processEvent] at hstep
            rw [targetInfoChanged_ignored_eq stMid i hign] at hstep
            simp only [Except.ok.injEq, Prod.mk.injEq] at hstep
            obtain ⟨hsteq, hemseq⟩ := hstep
            rw [← hsteq]
            refine ⟨?_, ?_, ?_, hnd⟩
            · rw [hmEq]
              unfold acceptedCount
              rw [haccEq]
              exact hsize
            · intro id hid
              rw [haccEq]
              exact hkeys id hid
            · intro id hid
              rw [hrejEq]
              exact hignored id hid
          · cases hlk : stMid.targets.lookup i.targetId with
            | none =>
              have herr : targetInfoChanged stMid i =
                  .error (.missingTargetInInfoChanged i.targetId) := by
                unfold targetInfoChanged
                simp [hign, hlk]
              simp only [processEvent] at hstep
              rw [herr] at hstep
              exact absurd hstep (by simp)
            | some tgt =>
              simp only [processEvent] at hstep
              rw [targetInfoChanged_tracked_eq stMid i tgt hign hlk] at hstep
              simp only [Except.ok.injEq, Prod.mk.injEq] at hstep
              obtain ⟨hsteq, hemseq⟩ := hstep
              have hkeysEq : st'.targets.map Prod.fst =
                  stMid.targets.map Prod.fst := by
                rw [← hsteq]
                exact mapSet_keys_of_lookup_some stMid.targets i.targetId
                  (tgt.applyTargetInfoChanged i) tgt hlk
              refine ⟨?_, ?_, ?_, ?_⟩
              · have hlenEq : st'.targets.length = stMid.targets.length := by
                  have := congrArg List.length hkeysEq
                  simpa using this
                rw [hlenEq, hmEq]
                unfold acceptedCount
                rw [haccEq]
                exact hsize
              · intro id hid
                rw [hkeysEq] at hid
                rw [haccEq]
                exact hkeys id hid
              · intro id hid
                have hiEq : st'.ignoredTargets = stMid.ignoredTargets := by
                  rw [← hsteq]
                rw [hiEq] at hid
                rw [hrejEq]
                exact hignored id hid
              · rw [hkeysEq]
                exact hnd

/-- C3: for every sequence of target lifecycle events whose creations carry
pairwise-distinct target ids, after each successfully processed event the
target registry's size plus the number of destructions matching an accepted
creation so far equals the number of creations accepted by the target
filter so far (i.e. size = accepted − matched); and a second targetCreated
for an already-registered id is a fatal duplicate-target error. -/
theorem registry_size_matches_accepted_minus_matched
    (f : TargetInfo → Bool) (ctxs : List String) (hist : List TargetEvent)
    (hnodup : (createdIds hist).Nodup) :
    (∀ pre suf st, hist = pre ++ suf →
       processEvents f (initialState ctxs) pre = .ok st →
       st.targets.length + matchedCount f [] pre = acceptedCount f pre)
    ∧ (∀ (st : BrowserState) (info : TargetInfo) (b : Bool),
        f info = true → (st.targets.lookup info.targetId).isSome = true →
        processEvent f st (.created info b) =
          .error (.duplicateTarget info.targetId)) := by
  constructor
  · intro pre suf st hsplit hrun
    have hpre : (createdIds pre).Nodup := by
      subst hsplit
      rw [createdIds_append] at hnodup
      exact hnodup.of_append_left
    exact (processEvents_invariant f ctxs pre hpre st hrun).1
  · intro st info b hf hdup
    simp only [processEvent]
    exact targetCreated_accepted_dup_eq f b st info hf hdup

/-- C3 witness: the theorem applied to the demo sequence (accepted creation
of "t1", rejected creation of "t2", destruction of ignored "t2",
destruction of tracked "t1"): the final registry is empty and
0 + matched = accepted holds. -/
theorem registry_size_matches_witness :
    (createdIds demoEvents).Nodup
    ∧ processEvents skipFilter (initialState []) demoEvents =
        .ok { contexts := [], targets := [], ignoredTargets := ["t2"] }
    ∧ ({ contexts := [], targets := [],
         ignoredTargets := ["t2"] } : BrowserState).targets.length
        + matchedCount skipFilter [] demoEvents =
        acceptedCount skipFilter demoEvents :=
  ⟨by decide, by decide,
   (registry_size_matches_accepted_minus_matched skipFilter [] demoEvents
     (by decide)).1 demoEvents []
     { contexts := [], targets := [], ignoredTargets := ["t2"] }
     (List.append_nil demoEvents).symm (by decide)⟩

/-- C4: a target whose creation the filter rejects is recorded in the
ignored set with nothing else changed (no Target object, no registration,
no emission); the set of initialized targets visible through targets() is
unchanged by the rejection; and every later targetDestroyed or
targetInfoChanged event for an ignored id returns without error, without
mutating the state and without emitting anything. -/
theorem rejected_target_is_ignored_and_silent
    (f : TargetInfo → Bool) (b : Bool) (st : BrowserState)
    (info : TargetInfo) (hrej : f info = false) :
    targetCreated f b st info =
      .ok ({ st with
             ignoredTargets := info.targetId :: st.ignoredTargets }, [])
    ∧ browserTargets
        { st with ignoredTargets := info.targetId :: st.ignoredTargets } =
      browserTargets st
    ∧ (∀ st₂ : BrowserState,
        st₂.ignoredTargets.contains info.targetId = true →
        targetDestroyed st₂ info.targetId = .ok (st₂, [])
        ∧ ∀ info₂ : TargetInfo, info₂.targetId = info.targetId →
            targetInfoChanged st₂ info₂ = .ok (st₂, [])) := by
  refine ⟨?_, rfl, ?_⟩
  · obtain ⟨c, hc⟩ := Option.isSome_iff_exists.mp
      (resolveContext_isSome st info.browserContextId)
    unfold targetCreated
    rw [hc]
    simp [hrej]
  · intro st₂ hign
    have hmem : info.targetId ∈ st₂.ignoredTargets := by simpa using hign
    constructor
    · unfold targetDestroyed
      simp [hmem]
    · intro info₂ hid
      unfold targetInfoChanged
      rw [hid]
      simp [hmem]

/-- C4 witness: the theorem applied at the empty state and a target of the
filtered-out type "skip". -/
theorem rejected_target_is_ignored_and_silent_witness :
    skipFilter { targetId := "t9", type := "skip", url := "u",
                 browserContextId := none } = false
    ∧ targetCreated skipFilter true (initialState [])
        { targetId := "t9", type := "skip", url := "u",
          browserContextId := none } =
      .ok ({ contexts := [], targets := [], ignoredTargets := ["t9"] },
           []) :=
  ⟨by decide,
   (rejected_target_is_ignored_and_silent skipFilter true (initialState [])
     { targetId := "t9", type := "skip", url := "u",
       browserContextId := none } (by decide)).1⟩

/-- C6: a targetInfoChanged event on a tracked, non-ignored target updates
the stored target info, and the emitted events are exactly one TargetChanged
at Browser scope followed by one at the owning context's scope if and only
if the target was already initialized before the event and its url differs
after the update; otherwise nothing is emitted. -/
theorem targetInfoChanged_emits_iff_initialized_and_url_changed
    (st : BrowserState) (info : TargetInfo) (t : Target)
    (hnotIgn : st.ignoredTargets.contains info.targetId = false)
    (hsome : st.targets.lookup info.targetId = some t) :
    ∃ ems, targetInfoChanged st info =
        .ok ({ st with targets := (mapSet st.targets info.targetId
                 (t.applyTargetInfoChanged info)) }, ems)
      ∧ (mapSet st.targets info.targetId
           (t.applyTargetInfoChanged info)).lookup info.targetId =
          some (t.applyTargetInfoChanged info)
      ∧ (ems = [.browserTargetChanged (t.applyTargetInfoChanged info),
                .contextTargetChanged t.contextId
                  (t.applyTargetInfoChanged info)]
          ↔ (t.isInitialized = true ∧ t.info.url ≠ info.url))
      ∧ (¬ (t.isInitialized = true ∧ t.info.url ≠ info.url) → ems = []) := by
  have hmem : info.targetId ∉ st.ignoredTargets := by simpa using hnotIgn
  have hstep : targetInfoChanged st info =
      if t.isInitialized = true ∧ t.info.url ≠ info.url then
        .ok ({ st with targets := (mapSet st.targets info.targetId
                 (t.applyTargetInfoChanged info)) },
             [.browserTargetChanged (t.applyTargetInfoChanged info),
              .contextTargetChanged t.contextId
                (t.applyTargetInfoChanged info)])
      else
        .ok ({ st with targets := (mapSet st.targets info.targetId
                 (t.applyTargetInfoChanged info)) }, []) := by
    unfold targetInfoChanged
    simp [hmem, hsome, Target.url, Target.applyTargetInfoChanged]
  by_cases hcond : t.isInitialized = true ∧ t.info.url ≠ info.url
  · refine ⟨[.browserTargetChanged (t.applyTargetInfoChanged info),
            .contextTargetChanged t.contextId (t.applyTargetInfoChanged info)],
      ?_, mapSet_lookup_self _ _ _, ?_, ?_⟩
    · rw [hstep, if_pos hcond]
    · simp [hcond]
    · intro hc; exact absurd hcond hc
  · refine ⟨[], ?_, mapSet_lookup_self _ _ _, ?_, fun _ => rfl⟩
    · rw [hstep, if_neg hcond]
    · simp [hcond]

/-- C6 witness: the theorem applied at the spec scenario: target "t1"
initialized at url about:blank receives an info change to https://a.com and
exactly one TargetChanged is emitted at browser scope and one at context
scope. -/
theorem targetInfoChanged_emits_iff_witness :
    (aboutBlankState.ignoredTargets.contains "t1" = false)
    ∧ (aboutBlankState.targets.lookup "t1" =
        some (pageTarget "t1" "about:blank"))
    ∧ targetInfoChanged aboutBlankState
        { targetId := "t1", type := "page", url := "https://a.com",
          browserContextId := none } =
      .ok ({ aboutBlankState with
             targets := (mapSet aboutBlankState.targets "t1"
               ((pageTarget "t1" "about:blank").applyTargetInfoChanged
                 { targetId := "t1", type := "page",
                   url := "https://a.com", browserContextId := none })) },
           [.browserTargetChanged
              ((pageTarget "t1" "about:blank").applyTargetInfoChanged
                { targetId := "t1", type := "page", url := "https://a.com",
                  browserContextId := none }),
            .contextTargetChanged (pageTarget "t1" "about:blank").contextId
              ((pageTarget "t1" "about:blank").applyTargetInfoChanged
                { targetId := "t1", type := "page", url := "https://a.com",
                  browserContextId := none })]) := by
  refine ⟨rfl, rfl, ?_⟩
  obtain ⟨ems, hstep, hlookup, hiff, hnone⟩ :=
    targetInfoChanged_emits_iff_initialized_and_url_changed aboutBlankState
      { targetId := "t1", type := "page", url := "https://a.com",
        browserContextId := none }
      (pageTarget "t1" "about:blank") rfl rfl
  have hems := hiff.mpr ⟨rfl, by decide⟩
  rw [hems] at hstep
  exact hstep

theorem translatePermissions_ok_of_all_mapped (perms : List String)
    (h : ∀ p ∈ perms,
      (WEB_PERMISSION_TO_PROTOCOL_PERMISSION.lookup p).isSome = true) :
    ∃ toks, translatePermissions perms = .ok toks := by
  induction perms with
  | nil => exact ⟨[], rfl⟩
  | cons p ps ih =>
    obtain ⟨pp, hpp⟩ := Option.isSome_iff_exists.mp (h p (by simp))
    obtain ⟨toks, htoks⟩ := ih (fun q hq => h q (by simp [hq]))
    refine ⟨pp :: toks, ?_⟩
    unfold translatePermissions
    rw [hpp, htoks]

theorem translatePermissions_error_of_unmapped (pre : List String)
    (p : String) (suf : List String)
    (hpre : ∀ q ∈ pre,
      (WEB_PERMISSION_TO_PROTOCOL_PERMISSION.lookup q).isSome = true)
    (hp : WEB_PERMISSION_TO_PROTOCOL_PERMISSION.lookup p = none) :
    translatePermissions (pre ++ p :: suf) =
      .error ("Unknown permission: " ++ p) := by
  induction pre with
  | nil =>
    simp only [List.nil_append]
    unfold translatePermissions
    rw [hp]
  | cons q qs ih =>
    obtain ⟨qq, hqq⟩ := Option.isSome_iff_exists.mp (hpre q (by simp))
    have hrest := ih (fun r hr => hpre r (by simp [hr]))
    simp only [List.cons_append]
    unfold translatePermissions
    rw [hqq, hrest]

/-- C8: overridePermissions with a list containing an unmapped name (every
name before it mapped) fails with the UnknownPermissionError naming that
permission and sends nothing; with every name mapped it sends exactly one
batched grant request scoped to this context's id (none, i.e. omitted, for
the default context). -/
theorem overridePermissions_all_or_nothing (contextId : Option String)
    (origin : String) (perms : List String) :
    ((∀ p ∈ perms,
        (WEB_PERMISSION_TO_PROTOCOL_PERMISSION.lookup p).isSome = true) →
      ∃ toks, overridePermissions contextId origin perms =
        .ok [.grantPermissions origin contextId toks])
    ∧ (∀ pre p suf, perms = pre ++ p :: suf →
        (∀ q ∈ pre,
          (WEB_PERMISSION_TO_PROTOCOL_PERMISSION.lookup q).isSome = true) →
        WEB_PERMISSION_TO_PROTOCOL_PERMISSION.lookup p = none →
        overridePermissions contextId origin perms =
          .error ("Unknown permission: " ++ p)) := by
  constructor
  · intro h
    obtain ⟨toks, htoks⟩ := translatePermissions_ok_of_all_mapped perms h
    refine ⟨toks, ?_⟩
    unfold overridePermissions
    rw [htoks]
  · intro pre p suf hsplit hpre hp
    subst hsplit
    unfold overridePermissions
    rw [translatePermissions_error_of_unmapped pre p suf hpre hp]

/-- C8 witness: the theorem applied at the spec scenario
overridePermissions(origin, [camera, bogus]): it fails naming bogus and no
request is sent. -/
theorem overridePermissions_all_or_nothing_witness :
    (["camera", "bogus"] = ["camera"] ++ "bogus" :: [])
    ∧ (WEB_PERMISSION_TO_PROTOCOL_PERMISSION.lookup "bogus" = none)
    ∧ overridePermissions none "https://html5demos.com"
        ["camera", "bogus"] =
      .error ("Unknown permission: " ++ "bogus") :=
  ⟨rfl, by decide,
   (overridePermissions_all_or_nothing none "https://html5demos.com"
     ["camera", "bogus"]).2 ["camera"] "bogus" [] rfl
     (by intro q hq; simp at hq; subst hq; decide) (by decide)⟩

end BrowserCore
